import Mathlib

/-!
Verification of the LinkDive coverage-analysis system.

The repository ships the TypeScript frontend; the backend components
(task orchestrator, aggregation engine, provider gateway, coverage
summary builder) are described by the design specification and are
modelled here from the spec.  Frontend logic that decides a claim
(`copySelectedUrls`, `BacklinkCharts`, `canCancel`, the poll-interval
policy, `aggregateDestination`) is embedded directly from the source.
-/

namespace LinkDive

/-! ## Task orchestrator (spec §3, §4.1) -/

/-- Task status values, from the spec's data model. -/
inductive TaskStatus where
  | pending
  | running
  | completed
  | failed
  | cancelled
deriving DecidableEq, Repr, Fintype

/-- A status is terminal when it is completed, failed or cancelled. -/
def TaskStatus.isTerminal : TaskStatus → Bool
  | .completed => true
  | .failed => true
  | .cancelled => true
  | _ => false

/-- Events that drive the task state machine. -/
inductive TaskEvent where
  | start
  | succeed
  | fail
  | cancel
deriving DecidableEq, Repr, Fintype

/-- Modelled from the spec: the task orchestrator's status state machine
(`pending --start--> running --succeed--> completed`;
`running --fail--> failed`; `pending|running --cancel--> cancelled`;
no transitions out of any terminal state).  The orchestrator itself is
not part of the shipped frontend sources. -/
def taskStep : TaskStatus → TaskEvent → Option TaskStatus
  | .pending, .start => some .running
  | .running, .succeed => some .completed
  | .running, .fail => some .failed
  | .pending, .cancel => some .cancelled
  | .running, .cancel => some .cancelled
  | _, _ => none

/-- The task record, restricted to the fields the claims exercise. -/
structure OrchestratorTask where
  id : String
  status : TaskStatus
  progress : Nat
  error_message : Option String
deriving DecidableEq, Repr

/-- Typed failure returned by cancellation of a terminal task. -/
inductive CancelError where
  | invalidState
deriving DecidableEq, Repr

/-- Modelled from the spec: `CancelTask` fails with `InvalidState` if the
status is already terminal and does not alter the task; otherwise it
transitions the task to `cancelled`.  The orchestrator is not part of
the shipped frontend sources. -/
def cancelTask (t : OrchestratorTask) : Except CancelError OrchestratorTask :=
  if t.status.isTerminal then .error .invalidState
  else .ok { t with status := .cancelled }

/-- The backend's string rendering of each status, as exchanged with the
frontend (`useBackgroundTasks.ts`, `BackgroundTaskMonitor.tsx`). -/
def statusString : TaskStatus → String
  | .pending => "pending"
  | .running => "running"
  | .completed => "completed"
  | .failed => "failed"
  | .cancelled => "cancelled"

/-- From `BackgroundTaskMonitor.tsx` (`TaskCard`): the Cancel action is
offered exactly when the status is `pending` or `running`. -/
def canCancel (status : String) : Bool :=
  ["pending", "running"].contains status

/-- From `useBackgroundTasks.ts` (`useTaskStatus`): poll every 2000 ms
while running, every 5000 ms while pending, and stop polling otherwise. -/
def pollInterval (status : String) : Option Nat :=
  if status = "running" then some 2000
  else if status = "pending" then some 5000
  else none

/-! ## URLs and raw provider entries (spec §3, §4.3 step 1) -/

/-- A structured URL; the aggregation engine normalizes the host to lower
case, strips a trailing slash from the path and drops the scheme's
default port. -/
structure Url where
  scheme : String
  host : String
  port : Option Nat
  path : String
deriving DecidableEq, Repr

/-- Lowercase a string character by character (ASCII case folding). -/
def lowerString (s : String) : String :=
  ⟨s.data.map Char.toLower⟩

/-- Default port of a scheme, used when normalizing URLs. -/
def defaultPort : String → Option Nat
  | "http" => some 80
  | "https" => some 443
  | _ => none

/-- Strip one trailing slash from a path. -/
def stripTrailingSlash (p : String) : String :=
  if p.data.getLast? = some '/' then ⟨p.data.dropLast⟩ else p

/-- Modelled from the spec: URL normalization (lowercase host, stripped
trailing slash, stripped default scheme port); the aggregation engine is
not part of the shipped frontend sources. -/
def normalizeUrl (u : Url) : Url :=
  { scheme := lowerString u.scheme
    host := lowerString u.host
    port := if u.port = defaultPort (lowerString u.scheme) then none else u.port
    path := stripTrailingSlash u.path }

/-- A raw provider entry, as consumed by the aggregation engine.  The
source page's text is carried as its list of words, which is what the
whole-word keyword matching of spec §4.3 step 3 inspects. -/
structure RawEntry where
  source_url : Url
  destination_url : Url
  anchor_text : String
  page_words : List String
  first_seen : Nat
  domain_rating : Nat
  url_rating : Nat
  source_api : String
deriving DecidableEq, Repr

/-- Normalize both URLs of a raw entry (spec §4.3 step 1). -/
def normalizeEntry (e : RawEntry) : RawEntry :=
  { e with
    source_url := normalizeUrl e.source_url
    destination_url := normalizeUrl e.destination_url }

/-- Deduplication key: the (normalized source, normalized destination)
pair (spec §4.3 step 2). -/
def entryKey (e : RawEntry) : Url × Url := (e.source_url, e.destination_url)

/-- Modelled from the spec: merging two raw entries that share a
deduplication key prefers the higher `domain_rating`/`url_rating` and
concatenates provenance into `source_api` (spec §4.3 step 2). -/
def mergeEntry (a b : RawEntry) : RawEntry :=
  { (if a.domain_rating < b.domain_rating then b else a) with
    source_url := a.source_url
    destination_url := a.destination_url
    domain_rating := max a.domain_rating b.domain_rating
    url_rating := max a.url_rating b.url_rating
    source_api := a.source_api ++ "," ++ b.source_api }

/-- Insert one entry into the working set, merging with the entry that
already carries the same key, if any. -/
def insertEntry : List RawEntry → RawEntry → List RawEntry
  | [], e => [e]
  | a :: rest, e =>
      if entryKey a = entryKey e then mergeEntry a e :: rest
      else a :: insertEntry rest e

/-- Modelled from the spec: deduplicate the flattened working set by the
(normalized source, normalized destination) key (spec §4.3 step 2). -/
def dedupEntries (es : List RawEntry) : List RawEntry :=
  es.foldl insertEntry []

/-! ## Campaigns and coverage classification (spec §4.3 steps 3–6) -/

/-- Campaign identity as read from the campaign store (spec §6). -/
structure Campaign where
  id : Nat
  domain : String
  url : Url
  verification_keywords : List String
  blacklist_domains : List String
deriving DecidableEq, Repr

/-- Coverage status of a canonical record. -/
inductive CoverageStatus where
  | verified
  | potential
deriving DecidableEq, Repr

/-- Modelled from the spec: a (normalized) destination is a direct
backlink when it equals the campaign's normalized target URL or its host
is the campaign's domain (spec §4.3 step 3). -/
def matchesTarget (c : Campaign) (dest : Url) : Bool :=
  dest = normalizeUrl c.url || dest.host = lowerString c.domain

/-- Case-insensitive whole-word keyword match against the source page's
words (spec §4.3 step 3). -/
def keywordMatch (keywords words : List String) : Bool :=
  keywords.any fun k => words.any fun w => lowerString w = lowerString k

/-- Number of configured keywords that match the page (spec §4.3 step 5
input (b)). -/
def keywordMatchCount (keywords words : List String) : Nat :=
  (keywords.filter fun k => words.any fun w => lowerString w = lowerString k).length

/-- Modelled from the spec: coverage classification. `verified` on a
direct backlink regardless of keyword content; `potential` when there is
no direct link but the page text contains a configured verification
keyword; an entry with neither signal yields no coverage record (spec
§4.3 step 3 together with the glossary's definition of coverage).  The
aggregation engine is not part of the shipped frontend sources. -/
def classifyCoverage (c : Campaign) (dest : Url) (words : List String) :
    Option CoverageStatus :=
  if matchesTarget c dest then some .verified
  else if keywordMatch c.verification_keywords words then some .potential
  else none

/-- Destination classes of spec §4.3 step 4. -/
inductive LinkDestinationClass where
  | homepage
  | blog_page
  | product
  | other
deriving DecidableEq, Repr

/-- Split a character list on `/`. -/
def splitSegAux : List Char → List Char → List String
  | [], cur => [⟨cur.reverse⟩]
  | ch :: rest, cur =>
      if ch = '/' then ⟨cur.reverse⟩ :: splitSegAux rest []
      else splitSegAux rest (ch :: cur)

/-- Non-empty segments of a URL path. -/
def pathSegments (p : String) : List String :=
  (splitSegAux p.data []).filter fun s => s ≠ ""

/-- Modelled from the spec: destination classification by path heuristics
(root path, blog/news segment, product/catalog segment, otherwise
`other`; spec §4.3 step 4). -/
def linkDestinationClass (u : Url) : LinkDestinationClass :=
  let segs := pathSegments u.path
  if segs = [] then .homepage
  else if segs.any (fun s => s = "blog" || s = "news") then .blog_page
  else if segs.any (fun s => s = "product" || s = "products" || s = "catalog" || s = "shop")
    then .product
  else .other

/-- Modelled from the spec: the confidence score, a 0–100 weighted
combination of direct-link presence (heavily weighted), keyword match
count and source domain authority, monotone in each input (spec §4.3
step 5; the exact weights are policy). -/
def confidenceScore (direct : Bool) (kwCount : Nat) (dr : Nat) : Nat :=
  min 100 ((if direct then 60 else 0) + min 20 (10 * kwCount) + min 20 (dr / 5))

/-- The canonical backlink record of the spec's data model. -/
structure BacklinkRecord where
  source_url : Url
  destination_url : Url
  anchor_text : String
  first_seen : Nat
  domain_rating : Nat
  url_rating : Nat
  coverage_status : CoverageStatus
  link_destination : LinkDestinationClass
  confidence_score : Nat
  source_api : String
deriving DecidableEq, Repr

/-- Build the canonical record for a classified (already normalized and
merged) entry. -/
def mkRecord (c : Campaign) (e : RawEntry) (st : CoverageStatus) : BacklinkRecord :=
  { source_url := e.source_url
    destination_url := e.destination_url
    anchor_text := e.anchor_text
    first_seen := e.first_seen
    domain_rating := e.domain_rating
    url_rating := e.url_rating
    coverage_status := st
    link_destination := linkDestinationClass e.destination_url
    confidence_score := confidenceScore (matchesTarget c e.destination_url)
      (keywordMatchCount c.verification_keywords e.page_words) e.domain_rating
    source_api := e.source_api }

/-- Modelled from the spec: a source URL is blacklisted when its domain
matches one of the campaign's `blacklist_domains` (spec §4.3 step 6). -/
def blacklistedSource (c : Campaign) (u : Url) : Bool :=
  c.blacklist_domains.any fun d => lowerString d = lowerString u.host

/-- Modelled from the spec: the aggregation engine.  Normalize, then
deduplicate by key, then classify coverage and destination and score,
then drop records whose source domain is blacklisted (spec §4.3).
The engine is not part of the shipped frontend sources. -/
def aggregate (c : Campaign) (raw : List RawEntry) : List BacklinkRecord :=
  let ded := dedupEntries (raw.map normalizeEntry)
  let classified := ded.filterMap fun e =>
    match classifyCoverage c e.destination_url e.page_words with
    | none => none
    | some st => some (mkRecord c e st)
  classified.filter fun r => !(blacklistedSource c r.source_url)

/-! ## Persistence: idempotent upsert-by-key (spec §5, §6) -/

/-- Persistence key of a canonical record. -/
def recordKey (r : BacklinkRecord) : Url × Url := (r.source_url, r.destination_url)

/-- Modelled from the spec: upsert one record into the store, replacing
the row that carries the same key or appending a new row (spec §5:
"aggregation writes are idempotent upsert-by-key").  The storage
collaborator is not part of the shipped frontend sources. -/
def upsertOne : List BacklinkRecord → BacklinkRecord → List BacklinkRecord
  | [], r => [r]
  | x :: rest, r =>
      if recordKey x = recordKey r then r :: rest
      else x :: upsertOne rest r

/-- Upsert a batch of records, in order. -/
def upsertRecords (db : List BacklinkRecord) (rs : List BacklinkRecord) :
    List BacklinkRecord :=
  rs.foldl upsertOne db

/-- Read the stored record under a key. -/
def lookupRecord : List BacklinkRecord → Url × Url → Option BacklinkRecord
  | [], _ => none
  | x :: rest, k => if recordKey x = k then some x else lookupRecord rest k

/-- The last record of a batch that carries a given key. -/
def lastWith (rs : List BacklinkRecord) (k : Url × Url) : Option BacklinkRecord :=
  match rs with
  | [] => none
  | r :: rest =>
      match lastWith rest k with
      | some x => some x
      | none => if recordKey r = k then some r else none

/-- One campaign-analysis persistence step: aggregate the raw provider
results and upsert the canonical records into the store. -/
def runAggregate (db : List BacklinkRecord) (c : Campaign) (raw : List RawEntry) :
    List BacklinkRecord :=
  upsertRecords db (aggregate c raw)

/-! ## Coverage summary builder (spec §4.5) -/

/-- Per-campaign coverage summary (counts and verification rate in %). -/
structure CampaignSummary where
  total_backlinks : Nat
  verified_coverage : Nat
  potential_coverage : Nat
  verification_rate : ℚ
deriving DecidableEq, Repr

/-- Modelled from the spec: `Summarize` computes totals and the
verification rate over a campaign's persisted records, returning a
well-defined zero-value summary for a campaign with no records (spec
§4.5).  The summary builder is not part of the shipped frontend
sources. -/
def summarize (records : List BacklinkRecord) : CampaignSummary :=
  let total := records.length
  let ver := (records.filter fun r => r.coverage_status = CoverageStatus.verified).length
  let pot := (records.filter fun r => r.coverage_status = CoverageStatus.potential).length
  { total_backlinks := total
    verified_coverage := ver
    potential_coverage := pot
    verification_rate := if total = 0 then 0 else (ver : ℚ) / (total : ℚ) * 100 }

/-- Cross-campaign aggregate summary. -/
structure AggregateSummary where
  total_campaigns : Nat
  total_backlinks : Nat
  overall_verification_rate : ℚ
deriving DecidableEq, Repr

/-- Modelled from the spec: `SummarizeAll` rolls the per-campaign record
sets up into `{total_campaigns, total_backlinks,
overall_verification_rate}`, returning zeroes over zero campaigns (spec
§4.5, §8).  The summary builder is not part of the shipped frontend
sources. -/
def summarizeAll (campaignRecords : List (List BacklinkRecord)) : AggregateSummary :=
  let totalB := (campaignRecords.map List.length).sum
  let totalV := (campaignRecords.map fun rs =>
    (rs.filter fun r => r.coverage_status = CoverageStatus.verified).length).sum
  { total_campaigns := campaignRecords.length
    total_backlinks := totalB
    overall_verification_rate :=
      if totalB = 0 then 0 else (totalV : ℚ) / (totalB : ℚ) * 100 }

/-- One destination bucket of a campaign's breakdown
(`CoverageDestinationBreakdown` in `types/api.ts`). -/
structure DestinationCount where
  destination : String
  count : Nat
deriving DecidableEq, Repr

/-- One bucket of the aggregated breakdown, with its share in %. -/
structure DestinationShare where
  destination : String
  count : Nat
  percentage : ℚ
deriving DecidableEq, Repr

/-- A campaign row as consumed by `aggregateDestination` in
`CoverageSummary` (only the breakdown field is read). -/
structure CoverageCampaignRow where
  destination_breakdown : List DestinationCount
deriving DecidableEq, Repr

/-- Accumulate one bucket into the running per-destination counts,
preserving first-insertion order as a JS object does. -/
def addCount : List (String × Nat) → DestinationCount → List (String × Nat)
  | [], d => [(d.destination, d.count)]
  | (k, n) :: rest, d =>
      if k = d.destination then (k, n + d.count) :: rest
      else (k, n) :: addCount rest d

/-- From `CoverageSummary` (`aggregateDestination`): sum the destination
breakdowns of all campaigns and attach each bucket's share, with the
share defined as 0 when the grand total is 0. -/
def aggregateDestination (campaigns : List CoverageCampaignRow) : List DestinationShare :=
  let counts := campaigns.foldl (fun acc c => c.destination_breakdown.foldl addCount acc) []
  let total := campaigns.foldl
    (fun t c => c.destination_breakdown.foldl (fun t2 d => t2 + d.count) t) 0
  counts.map fun p =>
    { destination := p.1
      count := p.2
      percentage := if total = 0 then 0 else (p.2 : ℚ) / (total : ℚ) * 100 }

/-! ## Provider gateway (spec §4.2) -/

/-- Status tag of a raw provider response. -/
inductive ProviderStatus where
  | ok
  | rate_limited
  | auth_error
  | empty
deriving DecidableEq, Repr

/-- A provider's raw response. -/
structure ProviderQueryResult where
  status : ProviderStatus
  records : List RawEntry
deriving DecidableEq, Repr

/-- Process-wide runtime configuration (spec §3). -/
structure RuntimeConfig where
  mock_mode : Bool
  provider_errors : List (String × String)
deriving DecidableEq, Repr

/-- A gateway query: the provider to ask and the domain asked about. -/
structure ProviderQuery where
  provider : String
  domain : String
deriving DecidableEq, Repr

/-- Deterministic seed derived from the query's domain. -/
def domainSeed (domain : String) : Nat :=
  domain.foldl (fun acc c => acc * 31 + c.toNat) 7

/-- Modelled from the spec: the deterministic mock response, seeded from
the query's domain so that repeated calls for the same domain are stable
(spec §4.2).  The gateway is not part of the shipped frontend sources. -/
def mockRecords (provider : String) (domain : String) : List RawEntry :=
  let seed := domainSeed domain
  (List.range (seed % 3 + 1)).map fun i =>
    { source_url :=
        { scheme := "https"
          host := "source" ++ toString ((seed + i) % 50) ++ ".example"
          port := none
          path := "/post" ++ toString i }
      destination_url :=
        { scheme := "https"
          host := domain
          port := none
          path := if i % 2 = 0 then "/" else "/blog/article" ++ toString i }
      anchor_text := domain
      page_words := [domain]
      first_seen := seed % 1000 + i
      domain_rating := (seed + 7 * i) % 101
      url_rating := (seed + 13 * i) % 101
      source_api := provider }

/-- Record a provider's last error in the runtime configuration. -/
def setProviderError (cfg : RuntimeConfig) (provider msg : String) : RuntimeConfig :=
  { cfg with
    provider_errors := (provider, msg) :: cfg.provider_errors.filter fun p => p.1 ≠ provider }

/-- Modelled from the spec: the gateway's `Fetch`.  In mock mode it
returns the deterministic mock response without touching the
configuration; live dispatch (abstracted as the `live` oracle) falls
back to mock data on `auth_error` and records live failures in
`provider_errors` (spec §4.2).  The gateway is not part of the shipped
frontend sources. -/
def fetch (live : ProviderQuery → ProviderQueryResult) (cfg : RuntimeConfig)
    (q : ProviderQuery) : ProviderQueryResult × RuntimeConfig :=
  if cfg.mock_mode then
    ({ status := .ok, records := mockRecords q.provider q.domain }, cfg)
  else
    let r := live q
    match r.status with
    | .ok => (r, cfg)
    | .auth_error =>
        ({ status := .ok, records := mockRecords q.provider q.domain },
         setProviderError cfg q.provider "auth error")
    | .rate_limited => (r, setProviderError cfg q.provider "rate limited")
    | .empty => (r, cfg)

/-! ## Frontend: coverage table copy action (`app/page.tsx`) -/

/-- A row of the campaign coverage table, restricted to the fields
`copySelectedUrls` reads. -/
structure CoverageRow where
  id : Nat
  url : String
  coverage_status : String
deriving DecidableEq, Repr

/-- `Array.from(new Set(...))`: deduplicate keeping the first occurrence
of each element, in order. -/
def dedupFirst (urls : List String) : List String :=
  urls.foldl (fun acc u => if u ∈ acc then acc else acc ++ [u]) []

/-- From `app/page.tsx` (`copySelectedUrls`): copy the deduplicated,
newline-joined URLs of the selected rows; with no selection fall back to
the rows whose coverage status is verified; write nothing when that set
is empty.  The clipboard write is modelled as the `some` result. -/
def copySelectedUrls (rows : List CoverageRow) (selectedIds : List Nat) : Option String :=
  let selected := rows.filter fun r => r.id ∈ selectedIds
  let toCopy := if selected.length = 0
    then rows.filter fun r => r.coverage_status = "verified"
    else selected
  let uniqueUrls := dedupFirst (toCopy.map fun r => r.url)
  if uniqueUrls.length = 0 then none
  else some (String.intercalate "\n" uniqueUrls)

/-! ## Frontend: analytics charts (`components/BacklinkCharts.tsx`) -/

/-- A backlink as consumed by the charts component, restricted to the
fields the summary statistics read. -/
structure ChartBacklink where
  url_from : String
  domain_rating : Nat
  link_type : String
  is_content : Bool
deriving DecidableEq, Repr

/-- Sum of the domain ratings (`backlinks.reduce((sum, b) => sum +
(b.domain_rating || 0), 0)`). -/
def ratingSum (backlinks : List ChartBacklink) : Nat :=
  backlinks.foldl (fun acc b => acc + b.domain_rating) 0

/-- The Quick Stats block of `BacklinkCharts`. -/
structure QuickStats where
  totalBacklinks : Nat
  avgDomainRating : ℚ
  contentLinks : Nat
deriving DecidableEq, Repr

/-- Compute the summary statistics; the average divides by the number of
backlinks. -/
def quickStats (backlinks : List ChartBacklink) : QuickStats :=
  { totalBacklinks := backlinks.length
    avgDomainRating := (ratingSum backlinks : ℚ) / (backlinks.length : ℚ)
    contentLinks := (backlinks.filter fun b => b.is_content).length }

/-- The three render outcomes of `BacklinkCharts`. -/
inductive ChartsView where
  | loadingView
  | noData
  | charts (stats : QuickStats)
deriving DecidableEq, Repr

/-- From `components/BacklinkCharts.tsx`: the loading skeleton comes
first, then the empty guard (`backlinks.length === 0`) returns the
"No data available for charts" branch, and only past it are the
statistics computed. -/
def backlinkCharts (isLoading : Bool) (backlinks : List ChartBacklink) : ChartsView :=
  if isLoading then .loadingView
  else if backlinks.length = 0 then .noData
  else .charts (quickStats backlinks)

/-! ## Theorems -/

/-- Looking a key up after one upsert finds the upserted record on its
key and is otherwise unchanged. -/
theorem lookupRecord_upsertOne (db : List BacklinkRecord) (r : BacklinkRecord)
    (k : Url × Url) :
    lookupRecord (upsertOne db r) k =
      if recordKey r = k then some r else lookupRecord db k := by
  induction db with
  | nil =>
      by_cases hk : recordKey r = k <;> simp [upsertOne, lookupRecord, hk]
  | cons x rest ih =>
      by_cases hx : recordKey x = recordKey r
      · by_cases hk : recordKey r = k
        · simp [upsertOne, hx, lookupRecord, hk]
        · have hxk : ¬ recordKey x = k := by rw [hx]; exact hk
          simp [upsertOne, hx, lookupRecord, hk, hxk]
      · by_cases hxk : recordKey x = k
        · have hrk : ¬ recordKey r = k := fun h => hx (hxk.trans h.symm)
          have hkr : ¬ k = recordKey r := fun h => hrk h.symm
          simp [upsertOne, hx, lookupRecord, hxk, hrk, hkr]
        · simp [upsertOne, hx, lookupRecord, hxk, ih]

/-- Looking a key up after a batch upsert finds the last record of the
batch that carries the key, and otherwise reads the original store. -/
theorem lookupRecord_upsertRecords (rs : List BacklinkRecord)
    (db : List BacklinkRecord) (k : Url × Url) :
    lookupRecord (upsertRecords db rs) k =
      match lastWith rs k with
      | some x => some x
      | none => lookupRecord db k := by
  induction rs generalizing db with
  | nil => simp [upsertRecords, lastWith, lookupRecord]
  | cons r rest ih =>
      have h1 : upsertRecords db (r :: rest) = upsertRecords (upsertOne db r) rest := rfl
      rw [h1, ih]
      cases hl : lastWith rest k with
      | some x => simp [lastWith, hl]
      | none =>
          by_cases hk : recordKey r = k <;>
            simp [lastWith, hl, lookupRecord_upsertOne, hk]

/-- Membership in the first-occurrence deduplication fold. -/
theorem mem_foldl_dedup (l acc : List String) (u : String) :
    u ∈ l.foldl (fun a v => if v ∈ a then a else a ++ [v]) acc ↔ u ∈ acc ∨ u ∈ l := by
  induction l generalizing acc with
  | nil => simp
  | cons x xs ih =>
      by_cases hx : x ∈ acc
      · rw [List.foldl_cons, if_pos hx, ih]
        constructor
        · rintro (h | h)
          · exact Or.inl h
          · exact Or.inr (List.mem_cons_of_mem x h)
        · rintro (h | h)
          · exact Or.inl h
          · rcases List.mem_cons.mp h with rfl | h2
            · exact Or.inl hx
            · exact Or.inr h2
      · rw [List.foldl_cons, if_neg hx, ih]
        simp only [List.mem_append, List.mem_cons, List.mem_singleton]
        tauto

/-- The first-occurrence deduplication fold preserves freedom from
duplicates. -/
theorem nodup_foldl_dedup (l : List String) :
    ∀ acc : List String, acc.Nodup →
      (l.foldl (fun a v => if v ∈ a then a else a ++ [v]) acc).Nodup := by
  induction l with
  | nil => intro acc h; simpa using h
  | cons x xs ih =>
      intro acc h
      by_cases hx : x ∈ acc
      · rw [List.foldl_cons, if_pos hx]; exact ih acc h
      · rw [List.foldl_cons, if_neg hx]
        have hdisj : acc.Disjoint [x] := by
          intro a ha hax
          simp only [List.mem_singleton] at hax
          exact hx (hax ▸ ha)
        exact ih _ (h.append (List.nodup_singleton x) hdisj)

/-- The first-occurrence deduplication fold appends a subsequence of its
input to the accumulator. -/
theorem sublist_foldl_dedup (l : List String) :
    ∀ acc : List String, ∃ t,
      l.foldl (fun a v => if v ∈ a then a else a ++ [v]) acc = acc ++ t ∧
      t.Sublist l := by
  induction l with
  | nil => exact fun acc => ⟨[], by simp, List.nil_sublist []⟩
  | cons x xs ih =>
      intro acc
      by_cases hx : x ∈ acc
      · obtain ⟨t, ht, hs⟩ := ih acc
        exact ⟨t, by rw [List.foldl_cons, if_pos hx]; exact ht, hs.cons x⟩
      · obtain ⟨t, ht, hs⟩ := ih (acc ++ [x])
        refine ⟨x :: t, ?_, hs.cons₂ x⟩
        rw [List.foldl_cons, if_neg hx, ht]
        simp

/-- C1: the task status only moves along the state machine
`pending → running → {completed, failed, cancelled}`: no event leads out
of a terminal status, `cancelled` is reachable only from `pending` or
`running`, every transition starts from `pending` or `running` and lands
on the machine's edges, and the frontend stops polling tasks whose
status is terminal. -/
theorem task_state_machine_monotone :
    (∀ (s : TaskStatus) (e : TaskEvent), s.isTerminal = true → taskStep s e = none) ∧
    (∀ (s : TaskStatus) (e : TaskEvent), taskStep s e = some TaskStatus.cancelled →
      s = TaskStatus.pending ∨ s = TaskStatus.running) ∧
    (∀ (s s' : TaskStatus) (e : TaskEvent), taskStep s e = some s' →
      (s = TaskStatus.pending ∧ (s' = TaskStatus.running ∨ s' = TaskStatus.cancelled)) ∨
      (s = TaskStatus.running ∧ (s' = TaskStatus.completed ∨ s' = TaskStatus.failed ∨
        s' = TaskStatus.cancelled))) ∧
    (∀ s : TaskStatus, s.isTerminal = true → pollInterval (statusString s) = none) := by
  refine ⟨?_, ?_, ?_, ?_⟩ <;> decide

/-- Witness for C1 at concrete statuses and events. -/
theorem task_state_machine_monotone_witness :
    taskStep TaskStatus.completed TaskEvent.cancel = none ∧
    (TaskStatus.pending = TaskStatus.pending ∨ TaskStatus.pending = TaskStatus.running) ∧
    pollInterval (statusString TaskStatus.cancelled) = none :=
  ⟨task_state_machine_monotone.1 TaskStatus.completed TaskEvent.cancel (by decide),
   task_state_machine_monotone.2.1 TaskStatus.pending TaskEvent.cancel (by decide),
   task_state_machine_monotone.2.2.2 TaskStatus.cancelled (by decide)⟩

/-- C2: cancelling a task whose status is terminal returns the
`InvalidState` failure and produces no modified task, cancelling a
pending or running task transitions it to `cancelled`, and the
frontend's Cancel action (`TaskCard.canCancel`) is offered exactly on
the non-terminal statuses. -/
theorem cancelTask_terminal_invalid :
    (∀ t : OrchestratorTask, t.status.isTerminal = true →
      cancelTask t = Except.error CancelError.invalidState) ∧
    (∀ t : OrchestratorTask,
      t.status = TaskStatus.pending ∨ t.status = TaskStatus.running →
      cancelTask t = Except.ok { t with status := TaskStatus.cancelled }) ∧
    (∀ s : TaskStatus, canCancel (statusString s) = !s.isTerminal) := by
  refine ⟨?_, ?_, ?_⟩
  · intro t h
    simp [cancelTask, h]
  · intro t h
    have hterm : t.status.isTerminal = false := by
      rcases h with h | h <;> simp [h, TaskStatus.isTerminal]
    simp [cancelTask, hterm]
  · decide

/-- Witness for C2 on one completed and one pending task. -/
theorem cancelTask_terminal_invalid_witness :
    cancelTask ⟨"a", TaskStatus.completed, 100, none⟩ =
      Except.error CancelError.invalidState ∧
    cancelTask ⟨"b", TaskStatus.pending, 0, none⟩ =
      Except.ok { (⟨"b", TaskStatus.pending, 0, none⟩ : OrchestratorTask) with
        status := TaskStatus.cancelled } :=
  ⟨cancelTask_terminal_invalid.1 ⟨"a", TaskStatus.completed, 100, none⟩ rfl,
   cancelTask_terminal_invalid.2.1 ⟨"b", TaskStatus.pending, 0, none⟩ (Or.inl rfl)⟩

/-- C7: the summary operations yield well-defined zero values on empty
input: `summarize` over no records gives all counts zero and rate 0,
`summarizeAll` over zero campaigns gives `{0, 0, 0}`, the frontend's
`aggregateDestination` gives an empty breakdown over zero campaigns, and
whenever the backlink grand total is zero the overall verification rate
is 0 rather than a division by zero. -/
theorem summaries_zero_on_empty :
    summarize [] = ⟨0, 0, 0, 0⟩ ∧
    summarizeAll [] = ⟨0, 0, 0⟩ ∧
    aggregateDestination [] = [] ∧
    (∀ campaignRecords : List (List BacklinkRecord),
      (campaignRecords.map List.length).sum = 0 →
      (summarizeAll campaignRecords).overall_verification_rate = 0) := by
  refine ⟨rfl, rfl, rfl, ?_⟩
  intro rss h
  simp [summarizeAll, h]

/-- Witness for C7: two campaigns that both have no records still give a
zero rate. -/
theorem summaries_zero_on_empty_witness :
    (summarizeAll [[], []]).overall_verification_rate = 0 :=
  summaries_zero_on_empty.2.2.2 [[], []] rfl

/-- C8: in mock mode the gateway's response is a deterministic function
of the query's domain: the returned record set does not depend on the
live oracle, and two consecutive mock fetches for the same domain
(threading the configuration returned by the first through the second)
return identical record sets. -/
theorem mock_fetch_deterministic :
    ∀ (live live' : ProviderQuery → ProviderQueryResult) (cfg : RuntimeConfig)
      (q : ProviderQuery), cfg.mock_mode = true →
      (fetch live cfg q).1.records = (fetch live' cfg q).1.records ∧
      (fetch live ((fetch live cfg q).2) q).1.records = (fetch live cfg q).1.records := by
  intro live live' cfg q h
  simp [fetch, h]

/-- Witness for C8 on a concrete domain with two distinct live oracles. -/
theorem mock_fetch_deterministic_witness :
    (fetch (fun _ => ⟨ProviderStatus.empty, []⟩) ⟨true, []⟩
        ⟨"ahrefs", "example.com"⟩).1.records =
      (fetch (fun _ => ⟨ProviderStatus.ok, []⟩) ⟨true, []⟩
        ⟨"ahrefs", "example.com"⟩).1.records ∧
    (fetch (fun _ => ⟨ProviderStatus.empty, []⟩)
        ((fetch (fun _ => ⟨ProviderStatus.empty, []⟩) ⟨true, []⟩
          ⟨"ahrefs", "example.com"⟩).2) ⟨"ahrefs", "example.com"⟩).1.records =
      (fetch (fun _ => ⟨ProviderStatus.empty, []⟩) ⟨true, []⟩
        ⟨"ahrefs", "example.com"⟩).1.records :=
  mock_fetch_deterministic (fun _ => ⟨ProviderStatus.empty, []⟩)
    (fun _ => ⟨ProviderStatus.ok, []⟩) ⟨true, []⟩ ⟨"ahrefs", "example.com"⟩ rfl

/-- C10: `BacklinkCharts` never computes statistics for an empty backlink
list — the empty list renders the no-data branch — so whenever the
statistics are rendered the list length is positive and the average
domain rating is the rating sum divided by that positive length. -/
theorem backlinkCharts_division_guarded :
    (∀ (isLoading : Bool) (stats : QuickStats),
      backlinkCharts isLoading [] ≠ ChartsView.charts stats) ∧
    backlinkCharts false [] = ChartsView.noData ∧
    (∀ (isLoading : Bool) (backlinks : List ChartBacklink) (stats : QuickStats),
      backlinkCharts isLoading backlinks = ChartsView.charts stats →
      0 < backlinks.length ∧
      stats.avgDomainRating = (ratingSum backlinks : ℚ) / (backlinks.length : ℚ)) := by
  refine ⟨?_, rfl, ?_⟩
  · intro il stats
    cases il <;> simp [backlinkCharts]
  · intro il bl stats h
    cases il
    · by_cases hlen : bl.length = 0
      · simp [backlinkCharts, hlen] at h
      · simp [backlinkCharts, hlen] at h
        refine ⟨by omega, ?_⟩
        subst h
        rfl
    · simp [backlinkCharts] at h

/-- Witness for C10 on a one-element backlink list. -/
theorem backlinkCharts_division_guarded_witness :
    0 < ([⟨"https://a.com", 10, "follow", true⟩] : List ChartBacklink).length ∧
    (quickStats [⟨"https://a.com", 10, "follow", true⟩]).avgDomainRating =
      (ratingSum [⟨"https://a.com", 10, "follow", true⟩] : ℚ) /
        (([⟨"https://a.com", 10, "follow", true⟩] : List ChartBacklink).length : ℚ) :=
  backlinkCharts_division_guarded.2.2 false [⟨"https://a.com", 10, "follow", true⟩]
    (quickStats [⟨"https://a.com", 10, "follow", true⟩]) rfl

/-- C3: an entry whose destination URL equals the campaign's target URL
is classified `verified` by the aggregation, regardless of the source
page's keyword content (provided its source is not blacklisted, which
would drop it); and an entry is classified `potential` only when it has
no direct link to the target and its page text contains at least one
configured verification keyword. -/
theorem direct_link_always_verified :
    (∀ (c : Campaign) (e : RawEntry),
      e.destination_url = c.url →
      blacklistedSource c (normalizeUrl e.source_url) = false →
      ∃ r, aggregate c [e] = [r] ∧ r.coverage_status = CoverageStatus.verified) ∧
    (∀ (c : Campaign) (dest : Url) (words : List String),
      classifyCoverage c dest words = some CoverageStatus.potential →
      matchesTarget c dest = false ∧
      keywordMatch c.verification_keywords words = true) := by
  constructor
  · intro c e hdest hbl
    have hded : dedupEntries [normalizeEntry e] = [normalizeEntry e] := by
      simp [dedupEntries, insertEntry]
    have hmt : matchesTarget c (normalizeEntry e).destination_url = true := by
      simp [normalizeEntry, matchesTarget, hdest]
    have hblm : blacklistedSource c
        (mkRecord c (normalizeEntry e) CoverageStatus.verified).source_url = false := by
      simpa [mkRecord, normalizeEntry] using hbl
    refine ⟨mkRecord c (normalizeEntry e) CoverageStatus.verified, ?_, rfl⟩
    simp [aggregate, hded, classifyCoverage, hmt, hblm]
  · intro c dest words h
    cases hm : matchesTarget c dest with
    | true => simp [classifyCoverage, hm] at h
    | false =>
        cases hk : keywordMatch c.verification_keywords words with
        | true => exact ⟨rfl, rfl⟩
        | false => simp [classifyCoverage, hm, hk] at h

/-- Witness for C3: a direct backlink to the campaign URL is verified,
and a keyword-only page is classified potential. -/
theorem direct_link_always_verified_witness :
    (∃ r, aggregate ⟨1, "example.com", ⟨"https", "example.com", none, "/"⟩, ["acme"], []⟩
        [⟨⟨"https", "blogger.com", none, "/post"⟩,
          ⟨"https", "example.com", none, "/"⟩, "anchor", ["irrelevant"], 5, 40, 30,
          "ahrefs"⟩] = [r] ∧
      r.coverage_status = CoverageStatus.verified) ∧
    (matchesTarget ⟨1, "example.com", ⟨"https", "example.com", none, "/"⟩, ["acme"], []⟩
        ⟨"https", "other.com", none, "/"⟩ = false ∧
      keywordMatch ["acme"] ["read", "about", "acme"] = true) :=
  ⟨direct_link_always_verified.1
      ⟨1, "example.com", ⟨"https", "example.com", none, "/"⟩, ["acme"], []⟩
      ⟨⟨"https", "blogger.com", none, "/post"⟩,
        ⟨"https", "example.com", none, "/"⟩, "anchor", ["irrelevant"], 5, 40, 30,
        "ahrefs"⟩ rfl rfl,
   direct_link_always_verified.2
      ⟨1, "example.com", ⟨"https", "example.com", none, "/"⟩, ["acme"], []⟩
      ⟨"https", "other.com", none, "/"⟩ ["read", "about", "acme"] (by decide)⟩

/-- C4: two raw entries that share the same normalized deduplication key
but carry different domain ratings are merged by the aggregation into a
single canonical record whose domain rating (and URL rating) is the
maximum of the two inputs and whose `source_api` concatenates the
provenance of both (shown for a surviving record: direct link, source
not blacklisted). -/
theorem dedup_merges_to_max_rating :
    ∀ (c : Campaign) (e1 e2 : RawEntry),
      e1.domain_rating ≠ e2.domain_rating →
      entryKey (normalizeEntry e1) = entryKey (normalizeEntry e2) →
      e1.destination_url = c.url →
      blacklistedSource c (normalizeUrl e1.source_url) = false →
      ∃ r, aggregate c [e1, e2] = [r] ∧
        r.domain_rating = max e1.domain_rating e2.domain_rating ∧
        r.url_rating = max e1.url_rating e2.url_rating ∧
        r.source_api = e1.source_api ++ "," ++ e2.source_api := by
  intro c e1 e2 _hne hkey hdest hbl
  have hded : dedupEntries [normalizeEntry e1, normalizeEntry e2] =
      [mergeEntry (normalizeEntry e1) (normalizeEntry e2)] := by
    simp [dedupEntries, insertEntry, hkey]
  have hmt : matchesTarget c
      (mergeEntry (normalizeEntry e1) (normalizeEntry e2)).destination_url = true := by
    simp [mergeEntry, normalizeEntry, matchesTarget, hdest]
  have hblm : blacklistedSource c
      (mkRecord c (mergeEntry (normalizeEntry e1) (normalizeEntry e2))
        CoverageStatus.verified).source_url = false := by
    simpa [mkRecord, mergeEntry, normalizeEntry] using hbl
  refine ⟨mkRecord c (mergeEntry (normalizeEntry e1) (normalizeEntry e2))
    CoverageStatus.verified, ?_, ?_, ?_, ?_⟩
  · simp [aggregate, hded, classifyCoverage, hmt, hblm]
  · simp [mkRecord, mergeEntry, normalizeEntry]
  · simp [mkRecord, mergeEntry, normalizeEntry]
  · simp [mkRecord, mergeEntry, normalizeEntry]

/-- Witness for C4: the same backlink reported by both providers with
ratings 40 and 70 merges into one record rated 70 with provenance from
both. -/
theorem dedup_merges_to_max_rating_witness :
    ∃ r, aggregate ⟨1, "example.com", ⟨"https", "example.com", none, "/"⟩, ["acme"], []⟩
        [⟨⟨"https", "blogger.com", none, "/post"⟩,
          ⟨"https", "example.com", none, "/"⟩, "anchor", ["acme"], 5, 40, 30, "ahrefs"⟩,
          ⟨⟨"HTTPS", "Blogger.com", some 443, "/post"⟩,
          ⟨"https", "example.com", none, "/"⟩, "anchor2", [], 6, 70, 20,
          "dataforseo"⟩] = [r] ∧
      r.domain_rating = max 40 70 ∧
      r.url_rating = max 30 20 ∧
      r.source_api = "ahrefs" ++ "," ++ "dataforseo" :=
  dedup_merges_to_max_rating
    ⟨1, "example.com", ⟨"https", "example.com", none, "/"⟩, ["acme"], []⟩
    ⟨⟨"https", "blogger.com", none, "/post"⟩,
      ⟨"https", "example.com", none, "/"⟩, "anchor", ["acme"], 5, 40, 30, "ahrefs"⟩
    ⟨⟨"HTTPS", "Blogger.com", some 443, "/post"⟩,
      ⟨"https", "example.com", none, "/"⟩, "anchor2", [], 6, 70, 20, "dataforseo"⟩
    (by decide) (by decide) rfl rfl

/-- C5: no canonical record whose source domain is blacklisted for the
campaign ever appears in the aggregation's output — blacklisted entries
are dropped entirely, whatever their classification would have been. -/
theorem blacklist_drops_records :
    ∀ (c : Campaign) (raw : List RawEntry) (r : BacklinkRecord),
      r ∈ aggregate c raw → blacklistedSource c r.source_url = false := by
  intro c raw r hr
  simp only [aggregate] at hr
  rw [List.mem_filter] at hr
  simpa using hr.2

/-- Witness for C5 on the record produced by one non-blacklisted entry. -/
theorem blacklist_drops_records_witness :
    blacklistedSource ⟨1, "example.com", ⟨"https", "example.com", none, "/"⟩, ["acme"],
        ["spam.example"]⟩
      (mkRecord ⟨1, "example.com", ⟨"https", "example.com", none, "/"⟩, ["acme"],
          ["spam.example"]⟩
        (normalizeEntry ⟨⟨"https", "blogger.com", none, "/post"⟩,
          ⟨"https", "example.com", none, "/"⟩, "anchor", ["acme"], 5, 40, 30, "ahrefs"⟩)
        CoverageStatus.verified).source_url = false :=
  blacklist_drops_records
    ⟨1, "example.com", ⟨"https", "example.com", none, "/"⟩, ["acme"], ["spam.example"]⟩
    [⟨⟨"https", "blogger.com", none, "/post"⟩,
      ⟨"https", "example.com", none, "/"⟩, "anchor", ["acme"], 5, 40, 30, "ahrefs"⟩]
    (mkRecord ⟨1, "example.com", ⟨"https", "example.com", none, "/"⟩, ["acme"],
        ["spam.example"]⟩
      (normalizeEntry ⟨⟨"https", "blogger.com", none, "/post"⟩,
        ⟨"https", "example.com", none, "/"⟩, "anchor", ["acme"], 5, 40, 30, "ahrefs"⟩)
      CoverageStatus.verified)
    (by decide)

/-- C6: the aggregation is deterministic — two runs on identical raw
input yield the identical canonical record list — and the persistence of
its output is an idempotent upsert-by-key: running the
aggregate-and-persist step twice leaves, under every key, exactly the
record the single run stored. -/
theorem aggregate_idempotent :
    (∀ (c : Campaign) (raw : List RawEntry), aggregate c raw = aggregate c raw) ∧
    (∀ (db : List BacklinkRecord) (c : Campaign) (raw : List RawEntry) (k : Url × Url),
      lookupRecord (runAggregate (runAggregate db c raw) c raw) k =
        lookupRecord (runAggregate db c raw) k) := by
  refine ⟨fun _ _ => rfl, ?_⟩
  intro db c raw k
  simp only [runAggregate]
  rw [lookupRecord_upsertRecords, lookupRecord_upsertRecords]
  cases lastWith (aggregate c raw) k <;> simp

/-- C9: the Copy Selected URLs action copies the deduplicated,
newline-joined URLs of the selected rows; with no row selected it falls
back to the URLs of the rows whose coverage status is verified; when
that fallback set is empty as well, nothing is written to the clipboard;
and the deduplication keeps the first occurrence of each URL in row
order (it yields a duplicate-free subsequence containing exactly the
input's URLs). -/
theorem copySelectedUrls_spec :
    (∀ (rows : List CoverageRow) (sel : List Nat),
      rows.filter (fun r => r.id ∈ sel) ≠ [] →
      copySelectedUrls rows sel =
        some (String.intercalate "\n"
          (dedupFirst ((rows.filter fun r => r.id ∈ sel).map fun r => r.url)))) ∧
    (∀ (rows : List CoverageRow) (sel : List Nat),
      rows.filter (fun r => r.id ∈ sel) = [] →
      rows.filter (fun r => r.coverage_status = "verified") ≠ [] →
      copySelectedUrls rows sel =
        some (String.intercalate "\n"
          (dedupFirst ((rows.filter fun r => r.coverage_status = "verified").map
            fun r => r.url)))) ∧
    (∀ (rows : List CoverageRow) (sel : List Nat),
      rows.filter (fun r => r.id ∈ sel) = [] →
      rows.filter (fun r => r.coverage_status = "verified") = [] →
      copySelectedUrls rows sel = none) ∧
    (∀ l : List String,
      (dedupFirst l).Nodup ∧ (dedupFirst l).Sublist l ∧
      ∀ u, u ∈ dedupFirst l ↔ u ∈ l) := by
  refine ⟨?_, ?_, ?_, ?_⟩
  · intro rows sel hne
    have hlen : ¬ (rows.filter fun r => r.id ∈ sel).length = 0 := by
      simpa [List.length_eq_zero] using hne
    have hne2 : dedupFirst ((rows.filter fun r => r.id ∈ sel).map fun r => r.url) ≠ [] := by
      obtain ⟨r, hr⟩ := List.exists_mem_of_ne_nil _ hne
      have hmap : r.url ∈ (rows.filter fun r => r.id ∈ sel).map fun r => r.url :=
        List.mem_map_of_mem _ hr
      have hmem : r.url ∈ dedupFirst ((rows.filter fun r => r.id ∈ sel).map
          fun r => r.url) :=
        (mem_foldl_dedup _ [] r.url).mpr (Or.inr hmap)
      intro h
      rw [h] at hmem
      exact absurd hmem (List.not_mem_nil r.url)
    have hlen2 : ¬ (dedupFirst ((rows.filter fun r => r.id ∈ sel).map
        fun r => r.url)).length = 0 := by
      simpa [List.length_eq_zero] using hne2
    simp [copySelectedUrls, hlen, hlen2]
  · intro rows sel hsel hver
    have hne2 : dedupFirst ((rows.filter fun r => r.coverage_status = "verified").map
        fun r => r.url) ≠ [] := by
      obtain ⟨r, hr⟩ := List.exists_mem_of_ne_nil _ hver
      have hmap : r.url ∈ (rows.filter fun r => r.coverage_status = "verified").map
          fun r => r.url :=
        List.mem_map_of_mem _ hr
      have hmem : r.url ∈ dedupFirst ((rows.filter
          fun r => r.coverage_status = "verified").map fun r => r.url) :=
        (mem_foldl_dedup _ [] r.url).mpr (Or.inr hmap)
      intro h
      rw [h] at hmem
      exact absurd hmem (List.not_mem_nil r.url)
    have hlen2 : ¬ (dedupFirst ((rows.filter
        fun r => r.coverage_status = "verified").map fun r => r.url)).length = 0 := by
      simpa [List.length_eq_zero] using hne2
    simp [copySelectedUrls, hsel, hlen2]
  · intro rows sel hsel hver
    simp [copySelectedUrls, hsel, hver, dedupFirst]
  · intro l
    refine ⟨nodup_foldl_dedup l [] (by simp), ?_, ?_⟩
    · obtain ⟨t, ht, hs⟩ := sublist_foldl_dedup l []
      have hd : dedupFirst l = t := by simpa [dedupFirst] using ht
      rw [hd]
      exact hs
    · intro u
      have h := mem_foldl_dedup l [] u
      simpa [dedupFirst] using h

/-- Witness for C9: a selected row's URL is copied, and an empty table
writes nothing. -/
theorem copySelectedUrls_spec_witness :
    copySelectedUrls [⟨1, "https://a.com/x", "verified"⟩,
        ⟨2, "https://b.com/y", "potential"⟩] [2] =
      some (String.intercalate "\n"
        (dedupFirst ((([⟨1, "https://a.com/x", "verified"⟩,
          ⟨2, "https://b.com/y", "potential"⟩] : List CoverageRow).filter
            fun r => r.id ∈ ([2] : List Nat)).map fun r => r.url))) ∧
    copySelectedUrls ([] : List CoverageRow) ([] : List Nat) = none :=
  ⟨copySelectedUrls_spec.1
      [⟨1, "https://a.com/x", "verified"⟩, ⟨2, "https://b.com/y", "potential"⟩] [2]
      (by decide),
   copySelectedUrls_spec.2.2.1 [] [] rfl rfl⟩

end LinkDive
